import Mathlib

/-!
Verification of the orbitiq enrichment pipeline against its specification.

The development shallowly embeds the three core components of the repository:

* src/crosswalk.py   -- identity crosswalk over tabular data (pandas)
* src/n2yo_client.py -- cached retrieval client with retry and backoff (tenacity)
* src/tle_parse.py   -- two-line element feature derivation

Tabular data is modelled as lists of association rows; machine floats are
modelled as real numbers; the effectful client is modelled as a deterministic
state machine over an explicit cache state, an abstract network oracle and an
event trace recording network requests, sleeps and cache writes.
-/

namespace OrbitIQ

/-! ### Strings: the Python string operations used by crosswalk.py and tle_parse.py

Python `str.upper` is modelled by `Char.toUpper` applied characterwise (the
ASCII fragment; the designators and catalog strings handled by the pipeline are
ASCII).  The regular expression `\s` is modelled on its ASCII fragment
`[ \t\n\r\f\v]`, which is also what `str.strip` removes. -/

/-- The characters matched by the Python regular expression `\s` and removed by
`str.strip` (ASCII fragment). -/
def pyIsSpace (c : Char) : Bool :=
  c == ' ' || c == '\t' || c == '\n' || c == '\r' || c == '\x0b' || c == '\x0c'

/-- Python `str.strip` on a character list: drop whitespace from both ends. -/
def pyStripList (l : List Char) : List Char :=
  ((l.dropWhile pyIsSpace).reverse.dropWhile pyIsSpace).reverse

/-- Python `str.strip`. -/
def pyStrip (s : String) : String := ⟨pyStripList s.data⟩

/-- The string pipeline of `normalize_intldes` from src/crosswalk.py applied to
one already-stringified value: `.str.upper()`, then
`.str.replace(r"\s+", "", regex=True)` (remove every whitespace character),
then `.str.strip()`. -/
def normStr (s : String) : String :=
  ⟨pyStripList ((s.data.map Char.toUpper).filter (fun c => !pyIsSpace c))⟩

/-! ### Cells and data frames: the fragment of pandas used by crosswalk.py -/

/-- A scalar sitting in a pandas cell: missing (`NaN`), Python `None`, an
integer, or a string. -/
inductive Cell where
  | na : Cell
  | pynone : Cell
  | intv : Int → Cell
  | strv : String → Cell
deriving DecidableEq, Repr

/-- `pd.isna` on a cell. -/
def Cell.isna : Cell → Bool
  | .na => true
  | .pynone => true
  | _ => false

/-- Python `str()` of a cell value, as performed by `Series.astype(str)`:
a float `NaN` prints as `"nan"` and `None` prints as `"None"`. -/
def Cell.pyStr : Cell → String
  | .na => "nan"
  | .pynone => "None"
  | .intv n => toString n
  | .strv s => s

/-- A data-frame row: an association list from column labels to cells. -/
abbrev Row := List (String × Cell)

/-- A data frame: a list of column labels and a list of rows. -/
structure DataFrame where
  cols : List String
  rows : List Row
deriving DecidableEq, Repr

/-- Read the cell of row `r` at column `c`; an absent entry reads as missing. -/
def getCell (r : Row) (c : String) : Cell :=
  match r.lookup c with
  | some v => v
  | none => Cell.na

/-- Write value `v` at column `c` of row `r`: replace the entry in place when
the label is present, append it otherwise (pandas column-assignment order). -/
def setCellIn (r : Row) (c : String) (v : Cell) : Row :=
  if r.any (fun p => p.1 == c) then
    r.map (fun p => if p.1 == c then (c, v) else p)
  else r ++ [(c, v)]

/-- `df[c] = f(row)` columnwise assignment. -/
def setCol (df : DataFrame) (c : String) (f : Row → Cell) : DataFrame :=
  ⟨if df.cols.contains c then df.cols else df.cols ++ [c],
   df.rows.map (fun r => setCellIn r c (f r))⟩

/-- `df.dropna(subset=subset)`: keep the rows whose cells at every column of
`subset` are non-missing. -/
def dropnaSubset (df : DataFrame) (subset : List String) : DataFrame :=
  ⟨df.cols, df.rows.filter (fun r => subset.all (fun c => !(getCell r c).isna))⟩

/-- Rename one key of a row. -/
def renameKey (r : Row) (old new : String) : Row :=
  r.map (fun p => if p.1 == old then (new, p.2) else p)

/-- `df.rename(columns={old: new})`. -/
def renameCol (df : DataFrame) (old new : String) : DataFrame :=
  ⟨df.cols.map (fun c => if c == old then new else c),
   df.rows.map (fun r => renameKey r old new)⟩

/-- Rebuild a row on an explicit list of columns, in that order. -/
def canonRow (cs : List String) (r : Row) : Row :=
  cs.map (fun c => (c, getCell r c))

/-- `df[[c1, ..., ck]]` column projection; raises `KeyError` when a requested
column is absent. -/
def projectCols (df : DataFrame) (cs : List String) : Except String DataFrame :=
  if cs.all (fun c => df.cols.contains c) then
    .ok ⟨cs, df.rows.map (fun r => canonRow cs r)⟩
  else .error "KeyError: missing column"

/-- `df.drop(columns=[c])`. -/
def dropColumn (df : DataFrame) (c : String) : DataFrame :=
  ⟨df.cols.filter (fun c2 => c2 != c),
   df.rows.map (fun r => r.filter (fun p => p.1 != c))⟩

/-! ### src/crosswalk.py -/

/-- `normalize_intldes` on one cell: `astype(str)` followed by the uppercase,
whitespace-removal and strip pipeline. -/
def normalize_intldes (c : Cell) : Cell := .strv (normStr c.pyStr)

/-- Decimal digits to a number, `none` on the empty list or a non-digit. -/
def parseNatChars (ds : List Char) : Option Nat :=
  match ds with
  | [] => none
  | _ =>
    if ds.all Char.isDigit then
      some (ds.foldl (fun acc c => acc * 10 + (c.toNat - 48)) 0)
    else none

/-- The integer fragment of the numeric-string parsing performed by
`pd.to_numeric`: an optional sign followed by digits. -/
def pyToInt? (s : String) : Option Int :=
  match s.data with
  | [] => none
  | '-' :: rest => (parseNatChars rest).map (fun n => -(n : Int))
  | ds => (parseNatChars ds).map (fun n => (n : Int))

/-- `pd.to_numeric(col, errors="coerce").astype("Int64")` on one cell,
restricted to integer-valued data: numeric residue is kept, non-numeric
residue becomes missing. -/
def toNumericInt64 : Cell → Cell
  | .intv n => .intv n
  | .strv s =>
    match pyToInt? s with
    | some n => .intv n
    | none => .na
  | _ => .na

/-- The fixed projection returned by `build_satcat_crosswalk`. -/
def crosswalkCols : List String :=
  ["INTLDES", "norad_id", "SATNAME", "COUNTRY", "LAUNCH", "DECAY"]

/-- `build_satcat_crosswalk(satcat_df)` from src/crosswalk.py. -/
def build_satcat_crosswalk (df : DataFrame) : Except String DataFrame :=
  if !(df.cols.contains "INTLDES") || !(df.cols.contains "NORAD_CAT_ID") then
    .error "satcat_df must contain columns INTLDES and NORAD_CAT_ID"
  else
    let df1 := setCol df "INTLDES" (fun r => normalize_intldes (getCell r "INTLDES"))
    let df2 := dropnaSubset df1 ["INTLDES", "NORAD_CAT_ID"]
    let df3 := renameCol df2 "NORAD_CAT_ID" "norad_id"
    let df4 := setCol df3 "norad_id" (fun r => toNumericInt64 (getCell r "norad_id"))
    projectCols df4 crosswalkCols

/-- The all-missing right side a left join attaches to an unmatched row. -/
def fillNaRow (cs : List String) : Row := cs.map (fun c => (c, Cell.na))

/-- The output rows a left join produces for one left row: one row per
matching right row, or a single row with an all-missing right side when
nothing matches. -/
def mergeBranch (xwalk : DataFrame) (lkey rkey : String) (lr : Row) : List Row :=
  let ms := xwalk.rows.filter (fun rr => getCell lr lkey == getCell rr rkey)
  if ms.isEmpty then [lr ++ fillNaRow xwalk.cols]
  else ms.map (fun rr => lr ++ canonRow xwalk.cols rr)

/-- `left.merge(right, left_on=lkey, right_on=rkey, how="left")` row
   construction: every left row is kept, in order, each contributing its
   branch of output rows. -/
def leftMergeRows (leftRows : List Row) (xwalk : DataFrame) (lkey rkey : String) : List Row :=
  leftRows.flatMap (mergeBranch xwalk lkey rkey)

/-- `merge_unoosa_with_crosswalk(unoosa_df, satcat_crosswalk, ucol)` from
src/crosswalk.py. -/
def merge_unoosa_with_crosswalk (unoosa xwalk : DataFrame) (ucol : String) :
    Except String DataFrame :=
  if !(unoosa.cols.contains ucol) then
    .error ("UNOOSA dataframe lacks column: " ++ ucol)
  else if !(xwalk.cols.contains "INTLDES") then
    .error "KeyError: INTLDES"
  else
    let df1 := setCol unoosa "intldes" (fun r => normalize_intldes (getCell r ucol))
    let merged : DataFrame :=
      ⟨df1.cols ++ xwalk.cols, leftMergeRows df1.rows xwalk "intldes" "INTLDES"⟩
    .ok (renameCol (dropColumn merged "INTLDES") "SATNAME" "satcat_satname")

/-- `True` exactly on the error constructor of an `Except` result. -/
def exceptIsError : Except String DataFrame → Bool
  | .error _ => true
  | .ok _ => false

/-- The rows of an `Except` result, empty on error. -/
def exceptRows : Except String DataFrame → List Row
  | .error _ => []
  | .ok df => df.rows

/-! ### src/n2yo_client.py

`N2YOClient.get_tle` is wrapped in
`@retry(wait=wait_exponential(multiplier=1, min=1, max=60), stop=stop_after_attempt(5))`.
One body execution checks the on-disk cache (valid entry: return it; corrupt
entry: fall through), then issues the network request, and on success sleeps
the politeness delay and writes the cache before returning.  The model runs
the body against an explicit cache state and an abstract network oracle
mapping the attempt number to that attempt's network outcome, and records an
event trace.  Payloads and errors are drawn from `Nat`. -/

/-- The state of the cache file `cache_dir/{norad_id}.json` for one id:
absent, present and parseable (holding a payload), or present but corrupt. -/
inductive CacheEntry where
  | absent : CacheEntry
  | valid : Nat → CacheEntry
  | corrupt : CacheEntry
deriving DecidableEq, Repr

/-- Outcome of one live network request: a JSON payload, or a failure
(a non-success status, timeout or connection error). -/
inductive NetOutcome where
  | success : Nat → NetOutcome
  | failure : Nat → NetOutcome
deriving DecidableEq, Repr

/-- Observable effects of `get_tle`: a live network request, the politeness
sleep, a backoff sleep between attempts (durations in seconds as rationals),
and a cache write. -/
inductive Event where
  | netRequest : Event
  | politeSleep : ℚ → Event
  | backoffSleep : ℚ → Event
  | cacheWrite : Nat → Event
deriving DecidableEq, Repr

/-- The client configuration relevant to the model: `polite_delay_seconds`. -/
structure ClientConfig where
  politeDelay : ℚ
deriving DecidableEq, Repr

/-- The constructor default `polite_delay_seconds: float = 0.25`. -/
def defaultPoliteDelay : ℚ := 25 / 100

/-- Result of the retry-wrapped call: the payload, or tenacity's `RetryError`
carrying the last underlying error once the attempts are exhausted. -/
inductive RetryResult where
  | ok : Nat → RetryResult
  | retryError : Nat → RetryResult
deriving DecidableEq, Repr

/-- One execution of the body of `get_tle`: cache check, then network fetch;
on fetch success, the politeness sleep fires and the payload is written to the
cache before the body returns. -/
def getTleBody (cfg : ClientConfig) (cache : CacheEntry) (net : NetOutcome) :
    Except Nat Nat × CacheEntry × List Event :=
  match cache with
  | .valid p => (.ok p, .valid p, [])
  | _ =>
    match net with
    | .success p =>
      (.ok p, .valid p, [.netRequest, .politeSleep cfg.politeDelay, .cacheWrite p])
    | .failure e => (.error e, cache, [.netRequest])

/-- tenacity `wait_exponential(multiplier, min, max)` evaluated after the
failed attempt numbered `attemptNumber`:
`max(min, min(max, multiplier * 2 ** (attempt_number - 1)))`. -/
def waitExponential (multiplier minW maxW : ℚ) (attemptNumber : Nat) : ℚ :=
  max minW (min maxW (multiplier * 2 ^ (attemptNumber - 1)))

/-- One round of the tenacity retry driver: run the body for attempt `k`; on
failure, stop with `RetryError` when `fuel` (the number of attempts still
allowed after this one) is zero, otherwise sleep the exponential backoff for
attempt `k` and continue with `recur` on the resulting cache state. -/
def retryStep (cfg : ClientConfig) (net : Nat → NetOutcome) (fuel k : Nat)
    (cache : CacheEntry) (recur : CacheEntry → RetryResult × CacheEntry × List Event) :
    RetryResult × CacheEntry × List Event :=
  match getTleBody cfg cache (net k) with
  | (.ok p, cache2, evs) => (.ok p, cache2, evs)
  | (.error e, cache2, evs) =>
    match fuel with
    | 0 => (.retryError e, cache2, evs)
    | _ + 1 =>
      let rest := recur cache2
      (rest.1, rest.2.1, evs ++ [.backoffSleep (waitExponential 1 1 60 k)] ++ rest.2.2)

/-- The tenacity retry driver: attempt `k` with `fuel` attempts allowed in
total (including attempt `k`). -/
def retryLoop (cfg : ClientConfig) (net : Nat → NetOutcome) :
    Nat → Nat → CacheEntry → RetryResult × CacheEntry × List Event
  | 0, _, cache => (.retryError 0, cache, [])
  | fuel + 1, k, cache => retryStep cfg net fuel k cache (retryLoop cfg net fuel (k + 1))

/-- `stop_after_attempt(5)`. -/
def stopAfterAttempts : Nat := 5

/-- `get_tle(norad_id)` for a fixed id: the tenacity-wrapped body, started at
attempt 1 with five total attempts allowed. -/
def get_tle (cfg : ClientConfig) (net : Nat → NetOutcome) (cache : CacheEntry) :
    RetryResult × CacheEntry × List Event :=
  retryLoop cfg net stopAfterAttempts 1 cache

/-! ### src/tle_parse.py

`parse_tle_fields` validates its input, splits it into stripped non-blank
lines, hands the first two lines to `Satrec.twoline2rv` (the external sgp4
library, modelled as an abstract parser returning the parsed element record
or a failure), and derives the feature set.  Machine floats are modelled as
real numbers; the fields the code guards against degenerate values (`NaN`
results and caught numeric exceptions) are `Option`-valued. -/

/-- The line separators occurring in TLE text: `\n` and `\r` (so `\r\n` as a
pair yields one extra empty segment, discarded by the blank-line filter). -/
def isLineBreakCh (c : Char) : Bool := c == '\n' || c == '\r'

/-- Split a character list at every separator character. -/
def splitCharsOn (p : Char → Bool) : List Char → List (List Char)
  | [] => [[]]
  | c :: rest =>
    match splitCharsOn p rest with
    | [] => [[c]]
    | g :: gs => if p c then [] :: g :: gs else (c :: g) :: gs

/-- Python `str.splitlines` restricted to the line separators occurring in
TLE text. -/
def splitlinesPy (s : String) : List String :=
  (splitCharsOn isLineBreakCh s.data).map (fun l => ⟨l⟩)

/-- `[ln.strip() for ln in text.splitlines() if ln.strip()]`. -/
def cleanLines (s : String) : List String :=
  ((splitlinesPy s).map pyStrip).filter (fun l => l != "")

/-- The fields of the parsed `Satrec` element record read by
`parse_tle_fields`: kozai mean motion (radians per minute), eccentricity,
inclination, right ascension, argument of perigee and mean anomaly (radians),
and the epoch Julian day with its fractional part. -/
structure Satrec where
  no_kozai : ℝ
  ecco : ℝ
  inclo : ℝ
  nodeo : ℝ
  argpo : ℝ
  mo : ℝ
  jdsatepoch : ℝ
  jdsatepochF : ℝ

/-- The derived feature set.  The Python code returns either `{}` or a dict
holding every key below, so a parse result is `Option OrbitalFeatures`; the
individually guarded numeric fields are `Option`-valued. -/
structure OrbitalFeatures where
  tle_epoch_unix : ℝ
  inclination_deg : ℝ
  raan_deg : ℝ
  argp_deg : ℝ
  mean_anomaly_deg : ℝ
  eccentricity : ℝ
  mean_motion_rev_per_day : ℝ
  period_min : Option ℝ
  semi_major_axis_km : Option ℝ
  perigee_km : Option ℝ
  apogee_km : Option ℝ

/-- `np.degrees`. -/
noncomputable def degOf (x : ℝ) : ℝ := x * 180 / Real.pi

/-- `mu_earth = 398600.4418  # km^3/s^2`. -/
noncomputable def muEarth : ℝ := 398600.4418

/-- `(sat.no_kozai * 1440.0) / (2.0 * np.pi)`: mean motion in rev/day. -/
noncomputable def meanMotionRevPerDay (sat : Satrec) : ℝ :=
  sat.no_kozai * 1440 / (2 * Real.pi)

/-- The semi-major axis computed by the code from the mean motion `m` in
rev/day: `n_rad_s = (m * 2.0 * np.pi) / 86400.0`;
`mu_earth ** (1/3) / n_rad_s ** (2/3)`. -/
noncomputable def sgp4SemiMajorKm (m : ℝ) : ℝ :=
  muEarth ^ ((1 : ℝ) / 3) / ((m * (2 * Real.pi) / 86400) ^ ((2 : ℝ) / 3))

/-- Modelled from the spec: Kepler semi-major axis, following the words of
section 4.3 (angular rate `n` in rad/s is `rev_per_day * 2 * pi / 86400`;
the semi-major axis in km is `mu_earth ^ (1/3) / n ^ (2/3)` with
`mu_earth = 398600.4418`).  Stated separately from `sgp4SemiMajorKm` so the
code formula can be compared against the specified one. -/
noncomputable def keplerSemiMajorSpec (m : ℝ) : ℝ :=
  muEarth ^ ((1 : ℝ) / 3) / ((m * (2 * Real.pi) / 86400) ^ ((2 : ℝ) / 3))

/-- The feature dict built for a successfully parsed record.  `period_min`
is guarded by the truthiness test `if mean_motion_rev_per_day and not
np.isnan(...)`, hence missing for a zero mean motion; the semi-major axis
and the altitudes derived from it are missing unless the mean motion is a
genuine positive rate (in the float code a nonpositive rate produces `NaN`
or a caught numeric error along this path). -/
noncomputable def mkFeatures (sat : Satrec) : OrbitalFeatures :=
  let jd := sat.jdsatepoch + sat.jdsatepochF
  let m := meanMotionRevPerDay sat
  let a? : Option ℝ := if 0 < m then some (sgp4SemiMajorKm m) else none
  { tle_epoch_unix := (jd - 2440587.5) * 86400
    inclination_deg := degOf sat.inclo
    raan_deg := degOf sat.nodeo
    argp_deg := degOf sat.argpo
    mean_anomaly_deg := degOf sat.mo
    eccentricity := sat.ecco
    mean_motion_rev_per_day := m
    period_min := if m ≠ 0 then some (1440 / m) else none
    semi_major_axis_km := a?
    perigee_km := a?.map (fun a => a * (1 - sat.ecco) - 6378.137)
    apogee_km := a?.map (fun a => a * (1 + sat.ecco) - 6378.137) }

/-- `parse_tle_fields(tle_one_line)` from src/tle_parse.py, parameterised by
the abstract `Satrec.twoline2rv` parser.  The input is a cell, because the
orchestration feeds it `payload.get("tle")`, which may be a string, `None`
or missing: any non-string input and the empty string short-circuit to the
empty feature set, as does an input with fewer than two stripped non-blank
lines or a parser failure. -/
noncomputable def parse_tle_fields (tlrv : String → String → Option Satrec) :
    Cell → Option OrbitalFeatures
  | .strv s =>
    if s == "" then none
    else
      match cleanLines s with
      | l1 :: l2 :: _ =>
        match tlrv l1 l2 with
        | some sat => some (mkFeatures sat)
        | none => none
      | _ => none
  | _ => none

/-- The element record of the C5 test vector: mean motion 15.5 rev/day
(`no_kozai` is the corresponding rate in radians per minute, so that
`no_kozai * 1440 / (2 * pi) = 15.5`) and eccentricity 0.0001. -/
noncomputable def satC5 : Satrec :=
  ⟨(31 / 2) * (2 * Real.pi) / 1440, 1 / 10000, 0, 0, 0, 0, 2458000, 1 / 2⟩

/-- A stand-in two-line input text for the C5 test vector. -/
def tleC5 : Cell := .strv "L1\nL2"

/-- An abstract parser that parses the C5 test vector. -/
noncomputable def tlrvC5 : String → String → Option Satrec := fun _ _ => some satC5

/-! ### Statement vocabulary for the crosswalk claims -/

/-- The predicate of the `dropna` step of `build_satcat_crosswalk`, expressed
on the raw catalog row: the normalized designator and the raw identifier are
both non-missing. -/
def keepRow (r : Row) : Bool :=
  !(normalize_intldes (getCell r "INTLDES")).isna && !(getCell r "NORAD_CAT_ID").isna

/-- The crosswalk row produced from one retained catalog row: normalized
designator, coerced identifier, and the fixed metadata projection. -/
def crosswalkRowOf (r : Row) : Row :=
  [("INTLDES", normalize_intldes (getCell r "INTLDES")),
   ("norad_id", toNumericInt64 (getCell r "NORAD_CAT_ID")),
   ("SATNAME", getCell r "SATNAME"), ("COUNTRY", getCell r "COUNTRY"),
   ("LAUNCH", getCell r "LAUNCH"), ("DECAY", getCell r "DECAY")]

/-- The per-row post-processing of the merge output: drop the right-hand join
key column and rename `SATNAME` to `satcat_satname`. -/
def mergeRowFix (row : Row) : Row :=
  renameKey (row.filter (fun p => p.1 != "INTLDES")) "SATNAME" "satcat_satname"

/-- The number of crosswalk rows whose `INTLDES` equals the `intldes` of the
given (restricted) external row. -/
def matchCountIn (xwalk : DataFrame) (x : Row) : Nat :=
  (xwalk.rows.filter (fun rr => getCell x "intldes" == getCell rr "INTLDES")).length

/-- Column labels the merge introduces or consumes; the external data is
assumed not to use them (pandas would disambiguate colliding labels with
suffixes, which the model does not reproduce). -/
def reservedMergeCols : List String :=
  ["intldes", "INTLDES", "SATNAME", "satcat_satname", "norad_id", "COUNTRY", "LAUNCH", "DECAY"]

/-! ### Concrete data frames for counterexamples and witnesses -/

/-- A catalog frame that has both join-key columns but no metadata columns. -/
def dfC8 : DataFrame :=
  ⟨["INTLDES", "NORAD_CAT_ID"],
   [[("INTLDES", Cell.strv "1998-067A"), ("NORAD_CAT_ID", Cell.intv 25544)]]⟩

/-- A one-row external frame whose designator resolves to `"A"`. -/
def unoosaC3 : DataFrame :=
  ⟨["international_designator"], [[("international_designator", Cell.strv "A")]]⟩

/-- A crosswalk with two rows carrying the same designator `"A"`: a duplicate
designator, as the source catalog permits. -/
def xwalkC3 : DataFrame :=
  ⟨crosswalkCols,
   [[("INTLDES", Cell.strv "A"), ("norad_id", Cell.intv 1), ("SATNAME", Cell.strv "S1"),
     ("COUNTRY", Cell.strv "US"), ("LAUNCH", Cell.strv "2001"), ("DECAY", Cell.na)],
    [("INTLDES", Cell.strv "A"), ("norad_id", Cell.intv 2), ("SATNAME", Cell.strv "S2"),
     ("COUNTRY", Cell.strv "US"), ("LAUNCH", Cell.strv "2002"), ("DECAY", Cell.na)]]⟩

/-- The external part (designator plus normalized designator) of the row of
`unoosaC3`, as restricted by `canonRow`. -/
def extRowC3 : Row :=
  [("international_designator", Cell.strv "A"), ("intldes", Cell.strv "A")]

/-- A well-formed external frame for the merge witness. -/
def unoosaW : DataFrame := ⟨["d"], [[("d", Cell.strv " 1998-067a ")]]⟩

/-- A single-row crosswalk matching the witness designator. -/
def xwalkW : DataFrame :=
  ⟨crosswalkCols,
   [[("INTLDES", Cell.strv "1998-067A"), ("norad_id", Cell.intv 25544),
     ("SATNAME", Cell.strv "ISS"), ("COUNTRY", Cell.strv "INT"),
     ("LAUNCH", Cell.strv "1998"), ("DECAY", Cell.na)]]⟩

/-- The merge output of the witness frames. -/
def mW : DataFrame :=
  match merge_unoosa_with_crosswalk unoosaW xwalkW "d" with
  | .ok d => d
  | .error _ => ⟨[], []⟩

/-- A catalog frame on which `build_satcat_crosswalk` succeeds: both key
columns, all metadata columns, one row with a numeric-string identifier and
one row with a missing identifier. -/
def dfW7 : DataFrame :=
  ⟨["INTLDES", "NORAD_CAT_ID", "SATNAME", "COUNTRY", "LAUNCH", "DECAY"],
   [[("INTLDES", Cell.strv " 1998-067a "), ("NORAD_CAT_ID", Cell.strv "25544"),
     ("SATNAME", Cell.strv "ISS"), ("COUNTRY", Cell.strv "INT"),
     ("LAUNCH", Cell.strv "1998"), ("DECAY", Cell.na)],
    [("INTLDES", Cell.strv "X"), ("NORAD_CAT_ID", Cell.na),
     ("SATNAME", Cell.strv "GONE"), ("COUNTRY", Cell.strv "US"),
     ("LAUNCH", Cell.strv "1999"), ("DECAY", Cell.strv "2000")]]⟩

/-- The crosswalk built from the witness catalog. -/
def outW7 : DataFrame :=
  match build_satcat_crosswalk dfW7 with
  | .ok d => d
  | .error _ => ⟨[], []⟩

/-! ## Theorems -/

/-! ### String lemmas -/

theorem toNat_ofNat_valid (n : Nat) (h : n < 55296) : (Char.ofNat n).toNat = n := by
  have hv : n.isValidChar := Or.inl h
  unfold Char.ofNat
  rw [dif_pos hv]
  rfl

theorem toUpper_def (d : Char) :
    d.toUpper = if d.toNat ≥ 97 ∧ d.toNat ≤ 122 then Char.ofNat (d.toNat - 32) else d := rfl

theorem toUpper_toUpper (c : Char) : c.toUpper.toUpper = c.toUpper := by
  rw [toUpper_def c]
  by_cases h : c.toNat ≥ 97 ∧ c.toNat ≤ 122
  · rw [if_pos h, toUpper_def]
    have h65 : (Char.ofNat (c.toNat - 32)).toNat = c.toNat - 32 :=
      toNat_ofNat_valid _ (by omega)
    rw [h65, if_neg (by omega)]
  · rw [if_neg h, toUpper_def, if_neg h]

theorem mem_of_mem_dropWhile {α} {p : α → Bool} {l : List α} {c : α}
    (h : c ∈ l.dropWhile p) : c ∈ l := by
  induction l with
  | nil => simp at h
  | cons a t ih =>
    rw [List.dropWhile_cons] at h
    by_cases hp : p a = true
    · simp only [hp, if_true] at h
      exact List.mem_cons_of_mem a (ih h)
    · simp only [hp, if_false] at h
      exact h

theorem dropWhile_eq_self_of {α} {p : α → Bool} {l : List α}
    (h : ∀ c ∈ l, p c = false) : l.dropWhile p = l := by
  cases l with
  | nil => rfl
  | cons a t =>
    rw [List.dropWhile_cons, h a (List.mem_cons_self a t)]
    simp

theorem map_eq_self_of {α} {f : α → α} {l : List α}
    (h : ∀ a ∈ l, f a = a) : l.map f = l := by
  induction l with
  | nil => rfl
  | cons a t ih =>
    have ht : t.map f = t := ih (fun b hb => h b (List.mem_cons_of_mem a hb))
    rw [List.map_cons, h a (List.mem_cons_self a t), ht]

theorem mem_of_mem_pyStripList {l : List Char} {c : Char}
    (h : c ∈ pyStripList l) : c ∈ l := by
  unfold pyStripList at h
  rw [List.mem_reverse] at h
  have h2 := mem_of_mem_dropWhile h
  rw [List.mem_reverse] at h2
  exact mem_of_mem_dropWhile h2

theorem pyStripList_eq_self {l : List Char}
    (h : ∀ c ∈ l, pyIsSpace c = false) : pyStripList l = l := by
  unfold pyStripList
  rw [dropWhile_eq_self_of h]
  rw [dropWhile_eq_self_of (fun c hc => h c (List.mem_reverse.mp hc))]
  exact List.reverse_reverse l

theorem normStr_chars {s : String} {c : Char} (h : c ∈ (normStr s).data) :
    c.toUpper = c ∧ pyIsSpace c = false := by
  unfold normStr at h
  have h1 : c ∈ (s.data.map Char.toUpper).filter (fun c => !pyIsSpace c) :=
    mem_of_mem_pyStripList h
  rw [List.mem_filter] at h1
  obtain ⟨hmem, hsp⟩ := h1
  rw [List.mem_map] at hmem
  obtain ⟨d, _, hd⟩ := hmem
  constructor
  · rw [← hd]
    exact toUpper_toUpper d
  · simpa using hsp

theorem normStr_idem (s : String) : normStr (normStr s) = normStr s := by
  have hchars := fun c hc => normStr_chars (s := s) (c := c) hc
  have hmap : (normStr s).data.map Char.toUpper = (normStr s).data :=
    map_eq_self_of (fun c hc => (hchars c hc).1)
  have hfil : (normStr s).data.filter (fun c => !pyIsSpace c) = (normStr s).data := by
    rw [List.filter_eq_self]
    intro c hc
    rw [(hchars c hc).2]
    rfl
  have hstrip : pyStripList (normStr s).data = (normStr s).data :=
    pyStripList_eq_self (fun c hc => (hchars c hc).2)
  show (⟨pyStripList (((normStr s).data.map Char.toUpper).filter (fun c => !pyIsSpace c))⟩ : String) = normStr s
  rw [hmap, hfil, hstrip]

/-! ### C9 -/

/-- C9: `normalize` is idempotent: for all designator strings `s`,
`normalize(normalize(s)) = normalize(s)`, where `normalize` uppercases,
removes all whitespace (internal as well as leading and trailing) and trims;
the same holds for the cell-level `normalize_intldes`. -/
theorem claim_C9_normalize_idempotent :
    (∀ s : String, normStr (normStr s) = normStr s) ∧
    (∀ c : Cell, normalize_intldes (normalize_intldes c) = normalize_intldes c) := by
  refine ⟨normStr_idem, fun c => ?_⟩
  show Cell.strv (normStr (Cell.pyStr (Cell.strv (normStr c.pyStr)))) = _
  rw [show Cell.pyStr (Cell.strv (normStr c.pyStr)) = normStr c.pyStr from rfl]
  rw [normStr_idem]
  rfl

/-! ### Retrieval-client lemmas -/

theorem retryLoop_succ (cfg : ClientConfig) (net : Nat → NetOutcome) (n k : Nat)
    (cache : CacheEntry) :
    retryLoop cfg net (n + 1) k cache =
      retryStep cfg net n k cache (retryLoop cfg net n (k + 1)) := rfl
theorem getTleBody_ok_valid {cfg cache net p c2 evs}
    (h : getTleBody cfg cache net = (.ok p, c2, evs)) : c2 = CacheEntry.valid p := by
  cases cache <;> cases net <;>
    simp only [getTleBody, Prod.mk.injEq, Except.ok.injEq, reduceCtorEq, false_and] at h
  all_goals obtain ⟨rfl, rfl, -⟩ := h
  all_goals rfl
theorem getTleBody_error_state {cfg cache net e c2 evs}
    (h : getTleBody cfg cache net = (.error e, c2, evs)) :
    c2 = cache ∧ evs = [Event.netRequest] := by
  cases cache <;> cases net <;>
    simp only [getTleBody, Prod.mk.injEq, Except.error.injEq, reduceCtorEq, false_and] at h
  all_goals obtain ⟨-, rfl, rfl⟩ := h
  all_goals exact ⟨rfl, rfl⟩

theorem retryLoop_ok_valid {cfg : ClientConfig} {net : Nat → NetOutcome} :
    ∀ fuel k cache p, (retryLoop cfg net fuel k cache).1 = RetryResult.ok p →
      (retryLoop cfg net fuel k cache).2.1 = CacheEntry.valid p := by
  intro fuel
  induction fuel with
  | zero => intro k cache p h; simp [retryLoop] at h
  | succ n ih =>
    intro k cache p h
    rw [retryLoop_succ] at h ⊢
    rcases hnet : net k with q | e2
    · cases cache <;> simp_all [retryStep, getTleBody]
    · cases cache with
      | valid p2 => simp_all [retryStep, getTleBody]
      | absent =>
        cases n with
        | zero => simp_all [retryStep, getTleBody]
        | succ n2 =>
          simp only [retryStep, getTleBody, hnet] at h ⊢
          exact ih (k + 1) .absent p h
      | corrupt =>
        cases n with
        | zero => simp_all [retryStep, getTleBody]
        | succ n2 =>
          simp only [retryStep, getTleBody, hnet] at h ⊢
          exact ih (k + 1) .corrupt p h

theorem retryLoop_error_state {cfg : ClientConfig} {net : Nat → NetOutcome} :
    ∀ fuel k cache e, (retryLoop cfg net fuel k cache).1 = RetryResult.retryError e →
      (retryLoop cfg net fuel k cache).2.1 = cache ∧
      ∀ q, Event.cacheWrite q ∉ (retryLoop cfg net fuel k cache).2.2 := by
  intro fuel
  induction fuel with
  | zero => intro k cache e h; exact ⟨rfl, by simp [retryLoop]⟩
  | succ n ih =>
    intro k cache e h
    rw [retryLoop_succ] at h ⊢
    rcases hnet : net k with q | e2
    · cases cache <;> simp_all [retryStep, getTleBody]
    · cases cache with
      | valid p2 => simp_all [retryStep, getTleBody]
      | absent =>
        cases n with
        | zero => simp_all [retryStep, getTleBody]
        | succ n2 =>
          simp only [retryStep, getTleBody, hnet] at h ⊢
          obtain ⟨hc, hw⟩ := ih (k + 1) .absent e h
          refine ⟨hc, fun q hq => ?_⟩
          simp only [List.mem_append, List.mem_cons, List.not_mem_nil] at hq
          rcases hq with ((hq | hq) | hq) | hq <;> simp_all
      | corrupt =>
        cases n with
        | zero => simp_all [retryStep, getTleBody]
        | succ n2 =>
          simp only [retryStep, getTleBody, hnet] at h ⊢
          obtain ⟨hc, hw⟩ := ih (k + 1) .corrupt e h
          refine ⟨hc, fun q hq => ?_⟩
          simp only [List.mem_append, List.mem_cons, List.not_mem_nil] at hq
          rcases hq with ((hq | hq) | hq) | hq <;> simp_all

theorem retryLoop_net_count {cfg : ClientConfig} {net : Nat → NetOutcome} :
    ∀ fuel k cache, ((retryLoop cfg net fuel k cache).2.2.count Event.netRequest) ≤ fuel := by
  intro fuel
  induction fuel with
  | zero => intro k cache; simp [retryLoop]
  | succ n ih =>
    intro k cache
    rw [retryLoop_succ]
    rcases hnet : net k with q | e2
    · cases cache <;> simp [retryStep, getTleBody, hnet, List.count_cons]
    · cases cache with
      | valid p2 => simp [retryStep, getTleBody, hnet]
      | absent =>
        cases n with
        | zero => simp [retryStep, getTleBody, hnet, List.count_cons]
        | succ n2 =>
          simp only [retryStep, getTleBody, hnet, List.count_append]
          have h1 := ih (k + 1) .absent
          simp [List.count_cons]
          omega
      | corrupt =>
        cases n with
        | zero => simp [retryStep, getTleBody, hnet, List.count_cons]
        | succ n2 =>
          simp only [retryStep, getTleBody, hnet, List.count_append]
          have h1 := ih (k + 1) .corrupt
          simp [List.count_cons]
          omega

theorem retryLoop_corrupt_absent {cfg : ClientConfig} {net : Nat → NetOutcome} :
    ∀ fuel k, ((retryLoop cfg net fuel k .corrupt).1 = (retryLoop cfg net fuel k .absent).1) ∧
      ((retryLoop cfg net fuel k .corrupt).2.2 = (retryLoop cfg net fuel k .absent).2.2) := by
  intro fuel
  induction fuel with
  | zero => intro k; exact ⟨rfl, rfl⟩
  | succ n ih =>
    intro k
    rcases hnet : net k with p | e
    · constructor <;> rw [retryLoop_succ, retryLoop_succ] <;>
        simp [retryStep, getTleBody, hnet]
    · cases n with
      | zero =>
        constructor <;> rw [retryLoop_succ, retryLoop_succ] <;>
          simp [retryStep, getTleBody, hnet]
      | succ n2 =>
        have h1 := (ih (k + 1)).1
        have h2 := (ih (k + 1)).2
        constructor <;> rw [retryLoop_succ, retryLoop_succ] <;>
          simp [retryStep, getTleBody, hnet, h1, h2]

theorem retryLoop_netRequest_mem (cfg : ClientConfig) (net : Nat → NetOutcome) (n k : Nat)
    (cache : CacheEntry) (h : cache = .absent ∨ cache = .corrupt) :
    Event.netRequest ∈ (retryLoop cfg net (n + 1) k cache).2.2 := by
  rcases h with h | h <;> subst h <;> rcases hnet : net k with p | e <;> cases n <;>
    rw [retryLoop_succ] <;> simp [retryStep, getTleBody, hnet]
theorem claim_C1_cache_semantics :
    (∀ cfg net p, get_tle cfg net (.valid p) = (.ok p, .valid p, [])) ∧
    (∀ cfg net cfg2 net2 cache p c evs, get_tle cfg net cache = (.ok p, c, evs) →
      get_tle cfg2 net2 c = (.ok p, c, [])) ∧
    (∀ cfg net, ((get_tle cfg net .corrupt).1 = (get_tle cfg net .absent).1) ∧
      ((get_tle cfg net .corrupt).2.2 = (get_tle cfg net .absent).2.2)) := by
  refine ⟨fun cfg net p => rfl, fun cfg net cfg2 net2 cache p c evs h => ?_,
    fun cfg net => retryLoop_corrupt_absent 5 1⟩
  have h1 : (retryLoop cfg net 5 1 cache).1 = RetryResult.ok p := by
    rw [show retryLoop cfg net 5 1 cache = get_tle cfg net cache from rfl, h]
  have hc : (retryLoop cfg net 5 1 cache).2.1 = CacheEntry.valid p :=
    retryLoop_ok_valid 5 1 cache p h1
  rw [show retryLoop cfg net 5 1 cache = get_tle cfg net cache from rfl, h] at hc
  simp only at hc
  rw [hc]
  rfl

theorem claim_C1_cache_semantics_witness :
    get_tle ⟨1/4⟩ (fun _ => .success 9) (.valid 9) = (.ok 9, .valid 9, []) :=
  claim_C1_cache_semantics.2.1 ⟨1/4⟩ (fun _ => .success 9) ⟨1/4⟩ (fun _ => .success 9)
    .absent 9 (.valid 9) [.netRequest, .politeSleep (1/4), .cacheWrite 9] rfl

theorem claim_C2_retry_policy :
    ((List.range 5).map (fun i => waitExponential 1 1 60 (i + 1)) = [1, 2, 4, 8, 16]) ∧
    (∀ n, waitExponential 1 1 60 n ≤ 60) ∧
    (∀ cfg net cache, ((get_tle cfg net cache).2.2.count Event.netRequest) ≤ 5) ∧
    (∀ cfg net (e : Nat → Nat), (∀ k, net k = .failure (e k)) →
      get_tle cfg net .absent =
        (.retryError (e 5), .absent,
         [.netRequest, .backoffSleep 1, .netRequest, .backoffSleep 2, .netRequest,
          .backoffSleep 4, .netRequest, .backoffSleep 8, .netRequest])) ∧
    (∀ cfg net p, (get_tle cfg net (.valid p)).2.2 = []) := by
  refine ⟨?_, fun n => max_le (by norm_num) (min_le_left _ _),
    fun cfg net cache => retryLoop_net_count 5 1 cache,
    fun cfg net e h => ?_, fun cfg net p => rfl⟩
  · norm_num [show List.range 5 = [0, 1, 2, 3, 4] from rfl, waitExponential, min_def, max_def]
  · show retryLoop cfg net 5 1 .absent = _
    simp [retryLoop, retryStep, getTleBody, h 1, h 2, h 3, h 4, h 5, waitExponential,
      min_def, max_def]
    norm_num

theorem claim_C2_retry_policy_witness :
    get_tle ⟨1/4⟩ (fun k => .failure k) .absent =
      (.retryError 5, .absent,
       [.netRequest, .backoffSleep 1, .netRequest, .backoffSleep 2, .netRequest,
        .backoffSleep 4, .netRequest, .backoffSleep 8, .netRequest]) :=
  claim_C2_retry_policy.2.2.2.1 ⟨1/4⟩ (fun k => .failure k) (fun k => k) (fun _ => rfl)

theorem claim_C6_polite_delay_and_persistence :
    (∀ cfg net p cache, (cache = .absent ∨ cache = .corrupt) → net 1 = .success p →
      get_tle cfg net cache =
        (.ok p, .valid p, [.netRequest, .politeSleep cfg.politeDelay, .cacheWrite p])) ∧
    (defaultPoliteDelay = 1 / 4) ∧
    (∀ cfg net p, (get_tle cfg net (.valid p)).2.2 = []) ∧
    (∀ cfg net cache d, Event.politeSleep d ∈ (get_tle cfg net cache).2.2 →
      Event.netRequest ∈ (get_tle cfg net cache).2.2) ∧
    (∀ cfg net cache e, (get_tle cfg net cache).1 = .retryError e →
      (get_tle cfg net cache).2.1 = cache ∧
      ∀ q, Event.cacheWrite q ∉ (get_tle cfg net cache).2.2) := by
  refine ⟨fun cfg net p cache hcache hnet => ?_, by norm_num [defaultPoliteDelay],
    fun cfg net p => rfl, fun cfg net cache d hmem => ?_,
    fun cfg net cache e h => retryLoop_error_state 5 1 cache e h⟩
  · rcases hcache with h | h <;> subst h <;>
      simp [get_tle, retryLoop, retryStep, getTleBody, hnet]
  · cases cache with
    | valid p =>
      rw [show (get_tle cfg net (.valid p)).2.2 = [] from rfl] at hmem
      simp at hmem
    | absent => exact retryLoop_netRequest_mem cfg net 4 1 .absent (Or.inl rfl)
    | corrupt => exact retryLoop_netRequest_mem cfg net 4 1 .corrupt (Or.inr rfl)

theorem claim_C6_polite_delay_and_persistence_witness :
    get_tle ⟨defaultPoliteDelay⟩ (fun _ => .success 3) .absent =
      (.ok 3, .valid 3, [.netRequest, .politeSleep defaultPoliteDelay, .cacheWrite 3]) :=
  claim_C6_polite_delay_and_persistence.1 ⟨defaultPoliteDelay⟩ (fun _ => .success 3) 3
    .absent (Or.inl rfl) rfl


/-! ### TLE-parsing lemmas -/

theorem parse_tle_fields_strv (tlrv : String → String → Option Satrec) (s : String) :
    parse_tle_fields tlrv (.strv s) =
      if s == "" then none
      else
        match cleanLines s with
        | l1 :: l2 :: _ =>
          (match tlrv l1 l2 with
           | some sat => some (mkFeatures sat)
           | none => none)
        | _ => none := rfl

theorem parse_some_features {tlrv : String → String → Option Satrec} {v : Cell}
    {f : OrbitalFeatures} (h : parse_tle_fields tlrv v = some f) :
    ∃ sat, f = mkFeatures sat := by
  cases v with
  | strv s =>
    rw [parse_tle_fields_strv] at h
    by_cases hs : (s == "") = true
    · rw [if_pos hs] at h
      exact absurd h (by simp)
    · rw [if_neg hs] at h
      rcases hcl : cleanLines s with _ | ⟨l1, rest⟩
      · rw [hcl] at h
        simp at h
      · rcases rest with _ | ⟨l2, rest2⟩
        · rw [hcl] at h
          simp at h
        · rw [hcl] at h
          have h2 : (match tlrv l1 l2 with
              | some sat => some (mkFeatures sat)
              | none => none) = some f := h
          rcases hp : tlrv l1 l2 with _ | sat
          · rw [hp] at h2
            simp at h2
          · rw [hp] at h2
            simp at h2
            exact ⟨sat, h2.symm⟩
  | na => simp [parse_tle_fields] at h
  | pynone => simp [parse_tle_fields] at h
  | intv n => simp [parse_tle_fields] at h

theorem mkFeatures_mean_motion (sat : Satrec) :
    (mkFeatures sat).mean_motion_rev_per_day = meanMotionRevPerDay sat := rfl

theorem mkFeatures_period (sat : Satrec) :
    (mkFeatures sat).period_min =
      if meanMotionRevPerDay sat ≠ 0 then some (1440 / meanMotionRevPerDay sat)
      else none := rfl

theorem mkFeatures_sma (sat : Satrec) :
    (mkFeatures sat).semi_major_axis_km =
      if 0 < meanMotionRevPerDay sat then some (sgp4SemiMajorKm (meanMotionRevPerDay sat))
      else none := rfl

/-! ### C4 -/

/-- C4: `parse_tle_fields` degrades to the empty feature set, raising no
error, on every malformed input: the empty string, any non-string input
(`None`, a missing value, a number), any input with fewer than two stripped
non-blank lines, and any input whose first two lines fail TLE parsing.  The
result type `Option OrbitalFeatures` reflects that the code returns either
`{}` or the fully populated dict, never a partially populated one. -/
theorem claim_C4_malformed_input_empty :
    (∀ tlrv, parse_tle_fields tlrv (.strv "") = none) ∧
    (∀ tlrv, parse_tle_fields tlrv .pynone = none) ∧
    (∀ tlrv, parse_tle_fields tlrv .na = none) ∧
    (∀ tlrv n, parse_tle_fields tlrv (.intv n) = none) ∧
    (∀ tlrv s, (cleanLines s).length < 2 → parse_tle_fields tlrv (.strv s) = none) ∧
    (∀ tlrv s l1 l2 rest, cleanLines s = l1 :: l2 :: rest → tlrv l1 l2 = none →
      parse_tle_fields tlrv (.strv s) = none) ∧
    (∀ tlrv, parse_tle_fields tlrv (.strv "single line") = none) := by
  refine ⟨fun tlrv => rfl, fun tlrv => rfl, fun tlrv => rfl, fun tlrv n => rfl,
    fun tlrv s hlen => ?_, fun tlrv s l1 l2 rest hcl hp => ?_, fun tlrv => rfl⟩
  · rw [parse_tle_fields_strv]
    by_cases hs : (s == "") = true
    · rw [if_pos hs]
    · rw [if_neg hs]
      rcases hcl : cleanLines s with _ | ⟨l1, _ | ⟨l2, rest2⟩⟩
      · rfl
      · rfl
      · rw [hcl] at hlen
        simp at hlen
        omega
  · rw [parse_tle_fields_strv]
    by_cases hs : (s == "") = true
    · rw [if_pos hs]
    · rw [if_neg hs, hcl]
      show (match tlrv l1 l2 with
            | some sat => some (mkFeatures sat)
            | none => none) = none
      rw [hp]

/-- Witness for C4 at concrete malformed inputs: a one-line input (fewer than
two lines) and a two-line input rejected by the parser. -/
theorem claim_C4_malformed_input_empty_witness :
    parse_tle_fields (fun _ _ => none) (.strv "one line only") = none ∧
    parse_tle_fields (fun _ _ => none) (.strv "A\nB") = none :=
  ⟨claim_C4_malformed_input_empty.2.2.2.2.1 (fun _ _ => none) "one line only" (by decide),
   claim_C4_malformed_input_empty.2.2.2.2.2.1 (fun _ _ => none) "A\nB" "A" "B" []
     (by decide) rfl⟩

/-! ### C5 numeric lemmas -/

theorem meanMotion_satC5 : meanMotionRevPerDay satC5 = 31 / 2 := by
  unfold meanMotionRevPerDay satC5
  have hπ : Real.pi ≠ 0 := Real.pi_ne_zero
  field_simp
  ring

theorem sgp4SemiMajorKm_cube (m : ℝ) (hm : 0 < m) :
    sgp4SemiMajorKm m ^ (3 : ℕ) = muEarth / (m * (2 * Real.pi) / 86400) ^ (2 : ℕ) := by
  have hmu : (0:ℝ) ≤ muEarth := by unfold muEarth; norm_num
  have hn : (0:ℝ) ≤ m * (2 * Real.pi) / 86400 := by positivity
  unfold sgp4SemiMajorKm
  rw [div_pow]
  rw [← Real.rpow_natCast (muEarth ^ ((1:ℝ)/3)) 3,
      ← Real.rpow_natCast ((m * (2 * Real.pi) / 86400) ^ ((2:ℝ)/3)) 3,
      ← Real.rpow_mul hmu, ← Real.rpow_mul hn]
  norm_num

theorem sgp4SemiMajorKm_pos (m : ℝ) (hm : 0 < m) : 0 < sgp4SemiMajorKm m := by
  unfold sgp4SemiMajorKm
  have h1 : (0:ℝ) < muEarth := by unfold muEarth; norm_num
  have h2 : (0:ℝ) < m * (2 * Real.pi) / 86400 := by positivity
  positivity

theorem sma_C5_bounds : 6794 < sgp4SemiMajorKm (31 / 2) ∧ sgp4SemiMajorKm (31 / 2) < 6796 := by
  have hm : (0:ℝ) < 31 / 2 := by norm_num
  have hpos := sgp4SemiMajorKm_pos (31 / 2) hm
  have hcube := sgp4SemiMajorKm_cube (31 / 2) hm
  have hπl := Real.pi_gt_d6
  have hπu := Real.pi_lt_d6
  have hπ0 := Real.pi_pos
  have hn2 : (0:ℝ) < ((31 / 2) * (2 * Real.pi) / 86400) ^ (2 : ℕ) := by positivity
  have hπ2u : Real.pi ^ (2:ℕ) < 3.141593 ^ (2:ℕ) := by nlinarith
  have hπ2l : (3.141592:ℝ) ^ (2:ℕ) < Real.pi ^ (2:ℕ) := by nlinarith
  constructor
  · have h3 : (6794:ℝ) ^ (3:ℕ) < sgp4SemiMajorKm (31 / 2) ^ (3:ℕ) := by
      rw [hcube, lt_div_iff₀ hn2]
      unfold muEarth
      nlinarith [hπ2u]
    exact lt_of_pow_lt_pow_left₀ 3 (le_of_lt hpos) h3
  · have h3 : sgp4SemiMajorKm (31 / 2) ^ (3:ℕ) < (6796:ℝ) ^ (3:ℕ) := by
      rw [hcube, div_lt_iff₀ hn2]
      unfold muEarth
      nlinarith [hπ2l]
    exact lt_of_pow_lt_pow_left₀ 3 (by norm_num) h3

/-! ### C5 -/

/-- C5 counterexample: the claim places the semi-major axis for a TLE with
mean motion 15.5 rev/day within 6800 to 6900 km, but the value the code
computes is about 6794.9 km, strictly below 6800 km: at the concrete parsed
record `satC5` (mean motion 15.5 rev/day, eccentricity 0.0001) the derived
semi-major axis exists and is less than 6800. -/
theorem claim_C5_counterexample :
    parse_tle_fields tlrvC5 tleC5 = some (mkFeatures satC5) ∧
    (mkFeatures satC5).mean_motion_rev_per_day = 31 / 2 ∧
    satC5.ecco = 1 / 10000 ∧
    (mkFeatures satC5).semi_major_axis_km ≠ none ∧
    (mkFeatures satC5).semi_major_axis_km.getD 0 < 6800 := by
  have hm := meanMotion_satC5
  have hsma : (mkFeatures satC5).semi_major_axis_km = some (sgp4SemiMajorKm (31 / 2)) := by
    rw [mkFeatures_sma, hm, if_pos (by norm_num)]
  refine ⟨rfl, by rw [mkFeatures_mean_motion, hm], rfl, by rw [hsma]; simp, ?_⟩
  rw [hsma]
  simp only [Option.getD_some]
  have h2 := sma_C5_bounds.2
  linarith

/-- C5 amended: for every successfully parsed record, when the derived mean
motion `m` (rev/day) is nonzero the period is `1440 / m`, and when `m` is
positive the semi-major axis is the Kepler third-law value with
`mu_earth = 398600.4418`; at the concrete test vector (mean motion 15.5
rev/day, eccentricity 0.0001) the period is `1440 / 15.5`, within 0.01 of
92.9 minutes, and the semi-major axis lies between 6790 and 6800 km (about
6795 km — just below the 6800 km edge the claim states, rather than within
6800 to 6900 km). -/
theorem claim_C5_amended :
    (∀ tlrv v f, parse_tle_fields tlrv v = some f → f.mean_motion_rev_per_day ≠ 0 →
      f.period_min = some (1440 / f.mean_motion_rev_per_day)) ∧
    (∀ tlrv v f, parse_tle_fields tlrv v = some f → 0 < f.mean_motion_rev_per_day →
      f.semi_major_axis_km = some (keplerSemiMajorSpec f.mean_motion_rev_per_day)) ∧
    parse_tle_fields tlrvC5 tleC5 = some (mkFeatures satC5) ∧
    (mkFeatures satC5).mean_motion_rev_per_day = 31 / 2 ∧
    (mkFeatures satC5).period_min = some (1440 / (31 / 2)) ∧
    |(1440 : ℝ) / (31 / 2) - 92.9| < 1 / 100 ∧
    6790 < (mkFeatures satC5).semi_major_axis_km.getD 0 ∧
    (mkFeatures satC5).semi_major_axis_km.getD 0 < 6800 := by
  have hm := meanMotion_satC5
  have hsma : (mkFeatures satC5).semi_major_axis_km = some (sgp4SemiMajorKm (31 / 2)) := by
    rw [mkFeatures_sma, hm, if_pos (by norm_num)]
  refine ⟨?_, ?_, rfl, by rw [mkFeatures_mean_motion, hm], ?_, by rw [abs_lt]; norm_num,
    ?_, ?_⟩
  · intro tlrv v f h hne
    obtain ⟨sat, rfl⟩ := parse_some_features h
    rw [mkFeatures_mean_motion] at hne ⊢
    rw [mkFeatures_period, if_pos hne]
  · intro tlrv v f h hpos
    obtain ⟨sat, rfl⟩ := parse_some_features h
    rw [mkFeatures_mean_motion] at hpos ⊢
    rw [mkFeatures_sma, if_pos hpos]
    rfl
  · rw [mkFeatures_period, hm, if_pos (by norm_num)]
  · rw [hsma]
    simp only [Option.getD_some]
    have h1 := sma_C5_bounds.1
    linarith
  · rw [hsma]
    simp only [Option.getD_some]
    have h2 := sma_C5_bounds.2
    linarith

/-- Witness for C5 (amended): the universally quantified clauses applied to
the concrete test vector. -/
theorem claim_C5_amended_witness :
    (mkFeatures satC5).period_min = some (1440 / (mkFeatures satC5).mean_motion_rev_per_day) ∧
    (mkFeatures satC5).semi_major_axis_km =
      some (keplerSemiMajorSpec (mkFeatures satC5).mean_motion_rev_per_day) :=
  ⟨claim_C5_amended.1 tlrvC5 tleC5 (mkFeatures satC5) rfl
     (by rw [mkFeatures_mean_motion, meanMotion_satC5]; norm_num),
   claim_C5_amended.2.1 tlrvC5 tleC5 (mkFeatures satC5) rfl
     (by rw [mkFeatures_mean_motion, meanMotion_satC5]; norm_num)⟩

/-! ### Association-row lemmas -/

theorem lookup_cons_eq (p : String × Cell) (t : Row) (c : String) (h : c = p.1) :
    (p :: t).lookup c = some p.2 := by
  rw [List.lookup_cons]
  have hb : (c == p.1) = true := beq_iff_eq.mpr h
  rw [hb]

theorem lookup_cons_ne (p : String × Cell) (t : Row) (c : String) (h : ¬ c = p.1) :
    (p :: t).lookup c = t.lookup c := by
  rw [List.lookup_cons]
  have hb : (c == p.1) = false := beq_eq_false_iff_ne.mpr h
  rw [hb]

theorem lookup_replaceKey (r : Row) (c : String) (v : Cell)
    (h : r.any (fun p => p.1 == c) = true) :
    (r.map (fun p => if p.1 == c then (c, v) else p)).lookup c = some v := by
  induction r with
  | nil => simp at h
  | cons p t ih =>
    rw [List.map_cons]
    by_cases hp : p.1 = c
    · rw [if_pos (by simp [hp])]
      exact lookup_cons_eq _ _ _ rfl
    · rw [if_neg (by simp [hp])]
      rw [lookup_cons_ne _ _ _ (Ne.symm hp)]
      apply ih
      simp only [List.any_cons, Bool.or_eq_true] at h
      rcases h with h | h
      · exact absurd (by simpa using h) hp
      · exact h

theorem lookup_replaceKey_ne (r : Row) (c c2 : String) (v : Cell) (h : ¬ c2 = c) :
    (r.map (fun p => if p.1 == c then (c, v) else p)).lookup c2 = r.lookup c2 := by
  induction r with
  | nil => rfl
  | cons p t ih =>
    rw [List.map_cons]
    by_cases hp : p.1 = c
    · rw [if_pos (by simp [hp])]
      rw [lookup_cons_ne _ _ _ h, lookup_cons_ne _ _ _ (by rw [hp]; exact h), ih]
    · rw [if_neg (by simp [hp])]
      by_cases hc2 : c2 = p.1
      · rw [lookup_cons_eq _ _ _ hc2, lookup_cons_eq _ _ _ hc2]
      · rw [lookup_cons_ne _ _ _ hc2, lookup_cons_ne _ _ _ hc2, ih]

theorem lookup_eq_none_of_not_any {r : Row} {c : String}
    (h : ¬ r.any (fun p => p.1 == c) = true) : r.lookup c = none := by
  induction r with
  | nil => rfl
  | cons p t ih =>
    simp only [List.any_cons, Bool.or_eq_true, not_or] at h
    have hp : ¬ p.1 = c := by simpa using h.1
    rw [lookup_cons_ne _ _ _ (Ne.symm hp)]
    exact ih h.2

theorem lookup_append_some {l1 : Row} (l2 : Row) {a : String} {v : Cell}
    (h : l1.lookup a = some v) : (l1 ++ l2).lookup a = some v := by
  induction l1 with
  | nil => simp at h
  | cons p t ih =>
    rw [List.cons_append]
    by_cases hp : a = p.1
    · rw [lookup_cons_eq _ _ _ hp] at h ⊢
      exact h
    · rw [lookup_cons_ne _ _ _ hp] at h ⊢
      exact ih h

theorem lookup_append_none {l1 : Row} (l2 : Row) {a : String}
    (h : l1.lookup a = none) : (l1 ++ l2).lookup a = l2.lookup a := by
  induction l1 with
  | nil => rfl
  | cons p t ih =>
    rw [List.cons_append]
    by_cases hp : a = p.1
    · rw [lookup_cons_eq _ _ _ hp] at h
      simp at h
    · rw [lookup_cons_ne _ _ _ hp] at h ⊢
      exact ih h

theorem lookup_setCellIn_self (r : Row) (c : String) (v : Cell) :
    (setCellIn r c v).lookup c = some v := by
  unfold setCellIn
  by_cases hany : r.any (fun p => p.1 == c) = true
  · rw [if_pos hany]
    exact lookup_replaceKey r c v hany
  · rw [if_neg hany]
    rw [lookup_append_none _ (lookup_eq_none_of_not_any hany)]
    exact lookup_cons_eq _ _ _ rfl

theorem lookup_setCellIn_ne (r : Row) (c c2 : String) (v : Cell) (h : ¬ c2 = c) :
    (setCellIn r c v).lookup c2 = r.lookup c2 := by
  unfold setCellIn
  by_cases hany : r.any (fun p => p.1 == c) = true
  · rw [if_pos hany]
    exact lookup_replaceKey_ne r c c2 v h
  · rw [if_neg hany]
    rcases hl : r.lookup c2 with _ | v2
    · rw [lookup_append_none _ hl, lookup_cons_ne _ _ _ h]
      rfl
    · rw [lookup_append_some _ hl]

theorem getCell_setCellIn_self (r : Row) (c : String) (v : Cell) :
    getCell (setCellIn r c v) c = v := by
  unfold getCell
  rw [lookup_setCellIn_self]

theorem getCell_setCellIn_ne (r : Row) (c c2 : String) (v : Cell) (h : ¬ c2 = c) :
    getCell (setCellIn r c v) c2 = getCell r c2 := by
  unfold getCell
  rw [lookup_setCellIn_ne r c c2 v h]

theorem lookup_renameKey_new (r : Row) (old new : String)
    (hnew : r.lookup new = none) :
    (renameKey r old new).lookup new = r.lookup old := by
  induction r with
  | nil => rfl
  | cons p t ih =>
    unfold renameKey
    rw [List.map_cons]
    by_cases hpn : new = p.1
    · rw [lookup_cons_eq _ _ _ hpn] at hnew
      simp at hnew
    · rw [lookup_cons_ne _ _ _ hpn] at hnew
      by_cases hp : p.1 = old
      · rw [if_pos (by simp [hp])]
        rw [lookup_cons_eq p t old hp.symm]
        exact lookup_cons_eq _ _ _ rfl
      · rw [if_neg (by simp [hp])]
        rw [lookup_cons_ne _ _ _ hpn, lookup_cons_ne _ _ _ (fun hc => hp hc.symm)]
        exact ih hnew

theorem lookup_renameKey_other (r : Row) (old new c : String) (h1 : ¬ c = old)
    (h2 : ¬ c = new) :
    (renameKey r old new).lookup c = r.lookup c := by
  induction r with
  | nil => rfl
  | cons p t ih =>
    unfold renameKey
    rw [List.map_cons]
    by_cases hp : p.1 = old
    · rw [if_pos (by simp [hp])]
      rw [lookup_cons_ne _ _ _ h2, lookup_cons_ne _ _ _ (by rw [hp]; exact h1)]
      exact ih
    · rw [if_neg (by simp [hp])]
      by_cases hc : c = p.1
      · rw [lookup_cons_eq _ _ _ hc, lookup_cons_eq _ _ _ hc]
      · rw [lookup_cons_ne _ _ _ hc, lookup_cons_ne _ _ _ hc]
        exact ih

theorem getCell_renameKey_other (r : Row) (old new c : String) (h1 : ¬ c = old)
    (h2 : ¬ c = new) :
    getCell (renameKey r old new) c = getCell r c := by
  unfold getCell
  rw [lookup_renameKey_other r old new c h1 h2]

theorem lookup_filterKey_ne (r : Row) (d c : String) (h : ¬ c = d) :
    (r.filter (fun p => p.1 != d)).lookup c = r.lookup c := by
  induction r with
  | nil => rfl
  | cons p t ih =>
    rw [List.filter_cons]
    by_cases hp : p.1 = d
    · rw [if_neg (by simp [hp])]
      rw [lookup_cons_ne _ _ _ (by rw [hp]; exact h)]
      exact ih
    · rw [if_pos (by simp [hp])]
      by_cases hc : c = p.1
      · rw [lookup_cons_eq _ _ _ hc, lookup_cons_eq _ _ _ hc]
      · rw [lookup_cons_ne _ _ _ hc, lookup_cons_ne _ _ _ hc]
        exact ih

theorem lookup_canonRow_mem (cs : List String) (r : Row) (c : String) (h : c ∈ cs) :
    (canonRow cs r).lookup c = some (getCell r c) := by
  induction cs with
  | nil => simp at h
  | cons c2 t ih =>
    unfold canonRow
    rw [List.map_cons]
    by_cases hc : c = c2
    · rw [lookup_cons_eq _ _ _ hc]
      rw [hc]
    · rw [lookup_cons_ne _ _ _ hc]
      apply ih
      rcases List.mem_cons.mp h with h2 | h2
      · exact absurd h2 hc
      · exact h2

theorem getCell_canonRow_mem (cs : List String) (r : Row) (c : String) (h : c ∈ cs) :
    getCell (canonRow cs r) c = getCell r c := by
  unfold getCell
  rw [lookup_canonRow_mem cs r c h]
  rfl

theorem lookup_none_iff (r : Row) (c : String) :
    r.lookup c = none ↔ ∀ p ∈ r, ¬ p.1 = c := by
  induction r with
  | nil => simp
  | cons p t ih =>
    by_cases hc : c = p.1
    · rw [lookup_cons_eq _ _ _ hc]
      constructor
      · intro hcontra
        exact absurd hcontra (by simp)
      · intro hall
        exact absurd hc.symm (hall p (List.mem_cons_self p t))
    · rw [lookup_cons_ne _ _ _ hc]
      rw [ih]
      constructor
      · intro hall q hq
        rcases List.mem_cons.mp hq with h2 | h2
        · rw [h2]
          exact fun hcc => hc hcc.symm
        · exact hall q h2
      · intro hall q hq
        exact hall q (List.mem_cons_of_mem p hq)

theorem lookup_some_mem {r : Row} {c : String} {v : Cell} (h : r.lookup c = some v) :
    (c, v) ∈ r := by
  induction r with
  | nil => simp at h
  | cons p t ih =>
    by_cases hc : c = p.1
    · rw [lookup_cons_eq _ _ _ hc] at h
      simp only [Option.some.injEq] at h
      rw [← h, hc]
      exact List.mem_cons_self _ _
    · rw [lookup_cons_ne _ _ _ hc] at h
      exact List.mem_cons_of_mem p (ih h)

theorem getCell_eq_of_lookup {r1 r2 : Row} {c1 c2 : String}
    (h : r1.lookup c1 = r2.lookup c2) : getCell r1 c1 = getCell r2 c2 := by
  unfold getCell
  rw [h]

theorem filter_of_map {α β} (f : α → β) (p : β → Bool) (l : List α) :
    (l.map f).filter p = (l.filter (fun a => p (f a))).map f := by
  induction l with
  | nil => rfl
  | cons a t ih =>
    rw [List.map_cons, List.filter_cons, List.filter_cons]
    by_cases hp : p (f a) = true
    · rw [if_pos hp, if_pos hp, List.map_cons, ih]
    · rw [if_neg hp, if_neg hp, ih]


/-! ### Crosswalk-build lemmas -/

theorem build_pred_chain (r : Row) :
    (["INTLDES", "NORAD_CAT_ID"].all fun c =>
      !(getCell (setCellIn r "INTLDES" (normalize_intldes (getCell r "INTLDES"))) c).isna)
    = keepRow r := by
  simp only [List.all_cons, List.all_nil, Bool.and_true]
  rw [getCell_setCellIn_self, getCell_setCellIn_ne _ _ _ _ (by decide)]
  rfl

theorem build_row_chain (r : Row) (hnid : r.lookup "norad_id" = none) :
    canonRow crosswalkCols
      (setCellIn
        (renameKey (setCellIn r "INTLDES" (normalize_intldes (getCell r "INTLDES")))
          "NORAD_CAT_ID" "norad_id")
        "norad_id"
        (toNumericInt64
          (getCell
            (renameKey (setCellIn r "INTLDES" (normalize_intldes (getCell r "INTLDES")))
              "NORAD_CAT_ID" "norad_id")
            "norad_id"))) = crosswalkRowOf r := by
  have hAnid : (setCellIn r "INTLDES" (normalize_intldes (getCell r "INTLDES"))).lookup
      "norad_id" = none := by
    rw [lookup_setCellIn_ne _ _ _ _ (by decide)]
    exact hnid
  have hB2 : getCell
      (renameKey (setCellIn r "INTLDES" (normalize_intldes (getCell r "INTLDES")))
        "NORAD_CAT_ID" "norad_id") "norad_id" = getCell r "NORAD_CAT_ID" := by
    apply getCell_eq_of_lookup
    rw [lookup_renameKey_new _ _ _ hAnid, lookup_setCellIn_ne _ _ _ _ (by decide)]
  have h1 : getCell
      (setCellIn
        (renameKey (setCellIn r "INTLDES" (normalize_intldes (getCell r "INTLDES")))
          "NORAD_CAT_ID" "norad_id")
        "norad_id"
        (toNumericInt64
          (getCell
            (renameKey (setCellIn r "INTLDES" (normalize_intldes (getCell r "INTLDES")))
              "NORAD_CAT_ID" "norad_id")
            "norad_id"))) "INTLDES" = normalize_intldes (getCell r "INTLDES") := by
    rw [getCell_setCellIn_ne _ _ _ _ (by decide),
        getCell_renameKey_other _ _ _ _ (by decide) (by decide),
        getCell_setCellIn_self]
  have h2 : getCell
      (setCellIn
        (renameKey (setCellIn r "INTLDES" (normalize_intldes (getCell r "INTLDES")))
          "NORAD_CAT_ID" "norad_id")
        "norad_id"
        (toNumericInt64
          (getCell
            (renameKey (setCellIn r "INTLDES" (normalize_intldes (getCell r "INTLDES")))
              "NORAD_CAT_ID" "norad_id")
            "norad_id"))) "norad_id" = toNumericInt64 (getCell r "NORAD_CAT_ID") := by
    rw [getCell_setCellIn_self, hB2]
  have hmeta : ∀ c, ¬ c = "INTLDES" → ¬ c = "norad_id" → ¬ c = "NORAD_CAT_ID" →
      getCell
        (setCellIn
          (renameKey (setCellIn r "INTLDES" (normalize_intldes (getCell r "INTLDES")))
            "NORAD_CAT_ID" "norad_id")
          "norad_id"
          (toNumericInt64
            (getCell
              (renameKey (setCellIn r "INTLDES" (normalize_intldes (getCell r "INTLDES")))
                "NORAD_CAT_ID" "norad_id")
              "norad_id"))) c = getCell r c := by
    intro c hc1 hc2 hc3
    rw [getCell_setCellIn_ne _ _ _ _ hc2,
        getCell_renameKey_other _ _ _ _ hc3 hc2,
        getCell_setCellIn_ne _ _ _ _ hc1]
  simp only [canonRow, crosswalkCols, crosswalkRowOf, List.map_cons, List.map_nil]
  rw [h1, h2, hmeta "SATNAME" (by decide) (by decide) (by decide),
      hmeta "COUNTRY" (by decide) (by decide) (by decide),
      hmeta "LAUNCH" (by decide) (by decide) (by decide),
      hmeta "DECAY" (by decide) (by decide) (by decide)]

/-! ### C7 -/

/-- C7: on a successful build, the crosswalk retains exactly the fixed
six-column projection; its rows are exactly the input rows that survive the
drop of rows with a missing normalized designator or missing identifier (an
exclusion, not an error), each transformed by normalizing the designator and
coercing the identifier; the coercion is total, producing an integer or a
missing value, and maps any non-numeric residue to missing rather than
raising. -/
theorem claim_C7_build_drop_and_coerce (df out : DataFrame)
    (hnid : ∀ r ∈ df.rows, r.lookup "norad_id" = none)
    (h : build_satcat_crosswalk df = .ok out) :
    out.cols = crosswalkCols ∧
    out.rows = (df.rows.filter keepRow).map crosswalkRowOf ∧
    (∀ c : Cell, toNumericInt64 c = .na ∨ ∃ n, toNumericInt64 c = .intv n) ∧
    (∀ s : String, pyToInt? s = none → toNumericInt64 (.strv s) = .na) := by
  simp only [build_satcat_crosswalk] at h
  by_cases hkeys : (!(df.cols.contains "INTLDES") || !(df.cols.contains "NORAD_CAT_ID")) = true
  · rw [if_pos hkeys] at h
    exact absurd h (by simp)
  · rw [if_neg hkeys] at h
    unfold projectCols at h
    split at h
    · simp only [Except.ok.injEq] at h
      refine ⟨by rw [← h], ?_, ?_, ?_⟩
      · rw [← h]
        show (List.map (fun r => canonRow crosswalkCols r)
            (setCol (renameCol (dropnaSubset
                (setCol df "INTLDES" (fun r => normalize_intldes (getCell r "INTLDES")))
                ["INTLDES", "NORAD_CAT_ID"]) "NORAD_CAT_ID" "norad_id") "norad_id"
              (fun r => toNumericInt64 (getCell r "norad_id"))).rows) =
          (df.rows.filter keepRow).map crosswalkRowOf
        simp only [setCol, dropnaSubset, renameCol]
        simp only [List.map_map, filter_of_map, List.map_map]
        rw [List.filter_congr (fun r hr => build_pred_chain r)]
        apply List.map_congr_left
        intro r hr
        have hr2 : r ∈ df.rows := List.mem_of_mem_filter hr
        simp only [Function.comp]
        exact build_row_chain r (hnid r hr2)
      · intro c
        cases c with
        | na => exact Or.inl rfl
        | pynone => exact Or.inl rfl
        | intv n => exact Or.inr ⟨n, rfl⟩
        | strv s =>
          rcases hp : pyToInt? s with _ | n
          · exact Or.inl (by simp [toNumericInt64, hp])
          · exact Or.inr ⟨n, by simp [toNumericInt64, hp]⟩
      · intro s hs
        simp [toNumericInt64, hs]
    · exact absurd h (by simp)

/-- Witness for C7: the concrete catalog `dfW7`, whose second row has a
missing identifier and is dropped while the first row survives with its
numeric-string identifier coerced. -/
theorem claim_C7_build_drop_and_coerce_witness :
    outW7.cols = crosswalkCols ∧
    outW7.rows = (dfW7.rows.filter keepRow).map crosswalkRowOf :=
  ⟨(claim_C7_build_drop_and_coerce dfW7 outW7 (by decide) rfl).1,
   (claim_C7_build_drop_and_coerce dfW7 outW7 (by decide) rfl).2.1⟩

/-! ### C10 -/

/-- C10: `normalize_intldes` stringifies every value before normalizing, so a
missing designator (`NaN` or `None`) becomes the literal non-empty string
`"NAN"` (or `"NONE"`), never a missing value; consequently the drop step of
`build_satcat_crosswalk` keeps exactly the rows with a non-missing
identifier: the designator half of the drop condition can never fire. -/
theorem claim_C10_stringified_nan_never_dropped :
    (∀ c : Cell, (normalize_intldes c).isna = false) ∧
    normalize_intldes .na = .strv "NAN" ∧
    normalize_intldes .pynone = .strv "NONE" ∧
    ("NAN" : String) ≠ "" ∧
    (∀ r : Row, keepRow r = !(getCell r "NORAD_CAT_ID").isna) ∧
    (∀ df : DataFrame,
      (dropnaSubset (setCol df "INTLDES" (fun r => normalize_intldes (getCell r "INTLDES")))
        ["INTLDES", "NORAD_CAT_ID"]).rows =
      (setCol df "INTLDES" (fun r => normalize_intldes (getCell r "INTLDES"))).rows.filter
        (fun r => !(getCell r "NORAD_CAT_ID").isna)) := by
  refine ⟨fun c => rfl, by decide, by decide, by decide, fun r => ?_, fun df => ?_⟩
  · unfold keepRow
    rw [show (normalize_intldes (getCell r "INTLDES")).isna = false from rfl]
    rfl
  · simp only [dropnaSubset, setCol]
    apply List.filter_congr
    intro r1 hr1
    simp only [List.mem_map] at hr1
    obtain ⟨r, hr, hr1⟩ := hr1
    rw [← hr1]
    rw [show (["INTLDES", "NORAD_CAT_ID"] : List String).all
        (fun c => !(getCell (setCellIn r "INTLDES"
          (normalize_intldes (getCell r "INTLDES"))) c).isna) = keepRow r from
      build_pred_chain r]
    unfold keepRow
    rw [show (normalize_intldes (getCell r "INTLDES")).isna = false from rfl,
        getCell_setCellIn_ne _ _ _ _ (by decide)]
    rfl

/-! ### C8 lemmas -/

theorem mem_renameCols_other (cols : List String) (old new c : String) (hc : ¬ c = old)
    (hcn : ¬ c = new) :
    (c ∈ cols.map (fun x => if x == old then new else x)) ↔ c ∈ cols := by
  rw [List.mem_map]
  constructor
  · rintro ⟨x, hx, hfx⟩
    by_cases hxo : x = old
    · rw [if_pos (by simp [hxo])] at hfx
      exact absurd hfx.symm hcn
    · rw [if_neg (by simp [hxo])] at hfx
      rw [← hfx]
      exact hx
  · intro hc2
    refine ⟨c, hc2, ?_⟩
    rw [if_neg (by simp [hc])]

theorem mem_renameCols_new (cols : List String) (old new : String) (h : old ∈ cols) :
    new ∈ cols.map (fun x => if x == old then new else x) := by
  rw [List.mem_map]
  exact ⟨old, h, by simp⟩

/-! ### C8 -/

/-- C8 counterexample: a catalog frame with both the designator and the
numeric identifier columns, but no metadata columns, makes
`build_satcat_crosswalk` fail (the fixed projection raises a `KeyError`),
contradicting the claim that a schema failure happens only when a join-key
column is missing. -/
theorem claim_C8_counterexample :
    ("INTLDES" ∈ dfC8.cols ∧ "NORAD_CAT_ID" ∈ dfC8.cols) ∧
    exceptIsError (build_satcat_crosswalk dfC8) = true := by
  constructor
  · exact ⟨by decide, by decide⟩
  · rfl

/-- C8 amended: `build_satcat_crosswalk` fails exactly when the designator
column, the identifier column, or any of the four projected metadata columns
(`SATNAME`, `COUNTRY`, `LAUNCH`, `DECAY`) is absent from the catalog data
(the first two raise the documented `ValueError`, the metadata columns a
`KeyError` at the final projection); `merge_unoosa_with_crosswalk`, applied
to a crosswalk that exposes its `INTLDES` column, fails exactly when the
caller-specified designator column is absent from the external data. -/
theorem claim_C8_amended :
    (∀ df : DataFrame, exceptIsError (build_satcat_crosswalk df) = true ↔
      ("INTLDES" ∉ df.cols ∨ "NORAD_CAT_ID" ∉ df.cols ∨ "SATNAME" ∉ df.cols ∨
       "COUNTRY" ∉ df.cols ∨ "LAUNCH" ∉ df.cols ∨ "DECAY" ∉ df.cols)) ∧
    (∀ (unoosa xwalk : DataFrame) (ucol : String), "INTLDES" ∈ xwalk.cols →
      (exceptIsError (merge_unoosa_with_crosswalk unoosa xwalk ucol) = true ↔
        ucol ∉ unoosa.cols)) := by
  constructor
  · intro df
    simp only [build_satcat_crosswalk]
    by_cases hI : "INTLDES" ∈ df.cols
    · by_cases hN : "NORAD_CAT_ID" ∈ df.cols
      · rw [if_neg (by simp [List.contains, hI, hN])]
        unfold projectCols
        have hex : ∃ a ∈ df.cols, ¬a = "NORAD_CAT_ID" → a = "norad_id" :=
          ⟨"NORAD_CAT_ID", hN, fun hc => absurd rfl hc⟩
        have hcols : (setCol (renameCol (dropnaSubset
            (setCol df "INTLDES" (fun r => normalize_intldes (getCell r "INTLDES")))
            ["INTLDES", "NORAD_CAT_ID"]) "NORAD_CAT_ID" "norad_id") "norad_id"
            (fun r => toNumericInt64 (getCell r "norad_id"))).cols =
            df.cols.map (fun x => if x == "NORAD_CAT_ID" then "norad_id" else x) := by
          simp [setCol, dropnaSubset, renameCol, hI, hex]
        simp only [hcols]
        by_cases hall : (crosswalkCols.all fun c =>
            (df.cols.map (fun x => if x == "NORAD_CAT_ID" then "norad_id" else x)).contains c)
            = true
        · rw [if_pos hall]
          simp only [crosswalkCols, List.all_cons, List.all_nil, Bool.and_eq_true,
            List.contains, List.elem_eq_mem, decide_eq_true_eq] at hall
          obtain ⟨-, -, hS, hC, hL, hD, -⟩ := hall
          rw [mem_renameCols_other df.cols "NORAD_CAT_ID" "norad_id" "SATNAME"
            (by decide) (by decide)] at hS
          rw [mem_renameCols_other df.cols "NORAD_CAT_ID" "norad_id" "COUNTRY"
            (by decide) (by decide)] at hC
          rw [mem_renameCols_other df.cols "NORAD_CAT_ID" "norad_id" "LAUNCH"
            (by decide) (by decide)] at hL
          rw [mem_renameCols_other df.cols "NORAD_CAT_ID" "norad_id" "DECAY"
            (by decide) (by decide)] at hD
          simp [exceptIsError, hI, hN, hS, hC, hL, hD]
        · rw [if_neg hall]
          simp only [exceptIsError, true_iff]
          by_contra hcon
          push_neg at hcon
          obtain ⟨-, -, hS, hC, hL, hD⟩ := hcon
          apply hall
          simp only [crosswalkCols, List.all_cons, List.all_nil, Bool.and_eq_true,
            List.contains, List.elem_eq_mem, decide_eq_true_eq]
          refine ⟨?_, ?_, ?_, ?_, ?_, ?_⟩
          · exact (mem_renameCols_other df.cols "NORAD_CAT_ID" "norad_id" "INTLDES"
              (by decide) (by decide)).mpr hI
          · exact mem_renameCols_new df.cols "NORAD_CAT_ID" "norad_id" hN
          · exact (mem_renameCols_other df.cols "NORAD_CAT_ID" "norad_id" "SATNAME"
              (by decide) (by decide)).mpr hS
          · exact (mem_renameCols_other df.cols "NORAD_CAT_ID" "norad_id" "COUNTRY"
              (by decide) (by decide)).mpr hC
          · exact (mem_renameCols_other df.cols "NORAD_CAT_ID" "norad_id" "LAUNCH"
              (by decide) (by decide)).mpr hL
          · exact ⟨(mem_renameCols_other df.cols "NORAD_CAT_ID" "norad_id" "DECAY"
              (by decide) (by decide)).mpr hD, trivial⟩
      · rw [if_pos (by simp [List.contains, hN])]
        simp [exceptIsError, hN]
    · rw [if_pos (by simp [List.contains, hI])]
      simp [exceptIsError, hI]
  · intro unoosa xwalk ucol hx
    simp only [merge_unoosa_with_crosswalk]
    by_cases hu : ucol ∈ unoosa.cols
    · rw [if_neg (by simp [List.contains, hu])]
      rw [if_neg (by simp [List.contains, hx])]
      simp [exceptIsError, hu]
    · rw [if_pos (by simp [List.contains, hu])]
      simp [exceptIsError, hu]

/-- Witness for C8 (amended): a catalog with every required column builds
successfully, and the witness merge with a present designator column does not
fail while a missing one does. -/
theorem claim_C8_amended_witness :
    exceptIsError (build_satcat_crosswalk dfW7) = false ∧
    exceptIsError (merge_unoosa_with_crosswalk unoosaW xwalkW "d") = false ∧
    exceptIsError (merge_unoosa_with_crosswalk unoosaW xwalkW "missing_col") = true := by
  refine ⟨?_, ?_, ?_⟩
  · have h := (claim_C8_amended.1 dfW7).not
    simp only [Bool.not_eq_true] at h
    apply h.mpr
    push_neg
    exact ⟨by decide, by decide, by decide, by decide, by decide, by decide⟩
  · have h := (claim_C8_amended.2 unoosaW xwalkW "d" (by decide)).not
    simp only [Bool.not_eq_true] at h
    apply h.mpr
    push_neg
    decide
  · exact (claim_C8_amended.2 unoosaW xwalkW "missing_col" (by decide)).mpr (by decide)

/-! ### Left-join lemmas -/

theorem mergeRowFix_append (lr rest : Row)
    (hI : lr.lookup "INTLDES" = none) (hS : lr.lookup "SATNAME" = none) :
    mergeRowFix (lr ++ rest) = lr ++ mergeRowFix rest := by
  unfold mergeRowFix renameKey
  rw [List.filter_append, List.map_append]
  congr 1
  have hfl : lr.filter (fun p => p.1 != "INTLDES") = lr := by
    rw [List.filter_eq_self]
    intro p hp
    have h2 := (lookup_none_iff lr "INTLDES").mp hI p hp
    simp [h2]
  rw [hfl]
  apply map_eq_self_of
  intro p hp
  have h2 := (lookup_none_iff lr "SATNAME").mp hS p hp
  rw [if_neg (by simp [h2])]

theorem getCell_append_left {lr : Row} (rest : Row) {c : String}
    (h : (lr.lookup c).isSome = true) : getCell (lr ++ rest) c = getCell lr c := by
  rcases hl : lr.lookup c with _ | v
  · rw [hl] at h
    simp at h
  · unfold getCell
    rw [lookup_append_some rest hl, hl]

theorem canonRow_congr {cs : List String} {r1 r2 : Row}
    (h : ∀ c ∈ cs, getCell r1 c = getCell r2 c) : canonRow cs r1 = canonRow cs r2 := by
  unfold canonRow
  apply List.map_congr_left
  intro c hc
  rw [h c hc]

theorem canon_mergeRowFix_append (extCols : List String) (lr rest : Row)
    (hcov : ∀ c ∈ extCols, (lr.lookup c).isSome = true)
    (hI : lr.lookup "INTLDES" = none) (hS : lr.lookup "SATNAME" = none) :
    canonRow extCols (mergeRowFix (lr ++ rest)) = canonRow extCols lr := by
  rw [mergeRowFix_append lr rest hI hS]
  apply canonRow_congr
  intro c hc
  exact getCell_append_left _ (hcov c hc)

theorem map_const_replicate {α β} (l : List α) (b : β) (f : α → β)
    (h : ∀ a ∈ l, f a = b) : l.map f = List.replicate l.length b := by
  induction l with
  | nil => rfl
  | cons a t ih =>
    rw [List.map_cons, h a (List.mem_cons_self a t), List.length_cons,
        List.replicate_succ, ih (fun a2 ha => h a2 (List.mem_cons_of_mem a ha))]

theorem values_na_mergeRowFix_fillNa (cols : List String) (p : String × Cell)
    (hp : p ∈ mergeRowFix (fillNaRow cols)) : p.2 = Cell.na := by
  unfold mergeRowFix renameKey at hp
  rw [List.mem_map] at hp
  obtain ⟨q, hq, hpq⟩ := hp
  have hq2 : q ∈ fillNaRow cols := List.mem_of_mem_filter hq
  have hqna : q.2 = Cell.na := by
    unfold fillNaRow at hq2
    rw [List.mem_map] at hq2
    obtain ⟨c2, -, hc2⟩ := hq2
    rw [← hc2]
  rw [← hpq]
  by_cases hqs : q.1 = "SATNAME"
  · rw [if_pos (by simp [hqs])]
    exact hqna
  · rw [if_neg (by simp [hqs])]
    exact hqna

theorem getCell_unmatched_na (cols : List String) (lr : Row) (c : String)
    (hc : lr.lookup c = none) (hI : lr.lookup "INTLDES" = none)
    (hS : lr.lookup "SATNAME" = none) :
    getCell (mergeRowFix (lr ++ fillNaRow cols)) c = Cell.na := by
  rw [mergeRowFix_append lr _ hI hS]
  unfold getCell
  rw [lookup_append_none _ hc]
  rcases hl : (mergeRowFix (fillNaRow cols)).lookup c with _ | v
  · rfl
  · have hv : v = Cell.na :=
      values_na_mergeRowFix_fillNa cols (c, v) (lookup_some_mem hl)
    rw [hv]

theorem count_leftMerge (xwalk : DataFrame) (extCols : List String)
    (hintl : "intldes" ∈ extCols) :
    ∀ rows : List Row,
      (∀ lr ∈ rows, (∀ c ∈ extCols, (lr.lookup c).isSome = true) ∧
        lr.lookup "INTLDES" = none ∧ lr.lookup "SATNAME" = none) →
      ∀ x : Row,
        ((leftMergeRows rows xwalk "intldes" "INTLDES").map
          (fun row => canonRow extCols (mergeRowFix row))).count x =
        ((rows.map (canonRow extCols)).count x) * max 1 (matchCountIn xwalk x) := by
  intro rows
  induction rows with
  | nil =>
    intro hprops x
    simp [leftMergeRows]
  | cons lr t ih =>
    intro hprops x
    obtain ⟨hcov, hI, hS⟩ := hprops lr (List.mem_cons_self lr t)
    have hpt := fun r hr => hprops r (List.mem_cons_of_mem lr hr)
    show ((((lr :: t).flatMap (mergeBranch xwalk "intldes" "INTLDES")).map
        (fun row => canonRow extCols (mergeRowFix row))).count x) = _
    rw [List.flatMap_cons, List.map_append, List.count_append]
    have hbranch : (((mergeBranch xwalk "intldes" "INTLDES" lr).map
        (fun row => canonRow extCols (mergeRowFix row))).count x) =
        if canonRow extCols lr = x then
          max 1 (xwalk.rows.filter
            (fun rr => getCell lr "intldes" == getCell rr "INTLDES")).length
        else 0 := by
      unfold mergeBranch
      by_cases hemp : (xwalk.rows.filter
          (fun rr => getCell lr "intldes" == getCell rr "INTLDES")).isEmpty = true
      · rw [if_pos hemp]
        rw [List.isEmpty_iff] at hemp
        rw [hemp]
        simp only [List.map_cons, List.map_nil, List.length_nil]
        rw [canon_mergeRowFix_append extCols lr _ hcov hI hS]
        by_cases hx2 : canonRow extCols lr = x
        · rw [if_pos hx2]
          simp [List.count_cons, hx2]
        · rw [if_neg hx2]
          simp [List.count_cons, hx2]
      · rw [if_neg hemp]
        rw [List.map_map]
        rw [map_const_replicate _ (canonRow extCols lr)
          ((fun row => canonRow extCols (mergeRowFix row)) ∘
            (fun rr => lr ++ canonRow xwalk.cols rr))
          (fun rr hrr => canon_mergeRowFix_append extCols lr _ hcov hI hS)]
        rw [List.count_replicate]
        have hlen : 0 < (xwalk.rows.filter
            (fun rr => getCell lr "intldes" == getCell rr "INTLDES")).length := by
          rcases hfl : xwalk.rows.filter
              (fun rr => getCell lr "intldes" == getCell rr "INTLDES") with _ | ⟨a, b⟩
          · rw [hfl] at hemp
            simp at hemp
          · simp
        by_cases hx2 : canonRow extCols lr = x
        · rw [if_pos (by simp [hx2]), if_pos hx2]
          omega
        · rw [if_neg (by simp [hx2]), if_neg hx2]
    rw [hbranch]
    have hih : (((t.flatMap (mergeBranch xwalk "intldes" "INTLDES")).map
        (fun row => canonRow extCols (mergeRowFix row))).count x) =
        ((t.map (canonRow extCols)).count x) * max 1 (matchCountIn xwalk x) := ih hpt x
    rw [hih, List.map_cons, List.count_cons]
    by_cases hx2 : canonRow extCols lr = x
    · have hb : (canonRow extCols lr == x) = true := by simp [hx2]
      have hmc : (xwalk.rows.filter
          (fun rr => getCell lr "intldes" == getCell rr "INTLDES")).length =
          matchCountIn xwalk x := by
        unfold matchCountIn
        rw [← hx2, getCell_canonRow_mem extCols lr "intldes" hintl]
      rw [if_pos hx2, hb, hmc, if_pos rfl]
      ring
    · have hb : (canonRow extCols lr == x) = false := by simp [hx2]
      rw [if_neg hx2, hb, if_neg (by simp)]
      simp

/-! ### C3 -/

/-- C3 counterexample: with a crosswalk holding two rows for the same
designator (duplicates the source catalog permits and the build does not
deduplicate), the single external row of `unoosaC3` appears twice in the
merged output, so its count in the input (one) does not equal its count in
the output (two), refuting the equal-count clause of the claim. -/
theorem claim_C3_counterexample :
    unoosaC3.rows.length = 1 ∧
    ((exceptRows (merge_unoosa_with_crosswalk unoosaC3 xwalkC3
      "international_designator")).map
        (canonRow ["international_designator", "intldes"])).count extRowC3 = 2 ∧
    (((setCol unoosaC3 "intldes" (fun r =>
        normalize_intldes (getCell r "international_designator"))).rows.map
      (canonRow ["international_designator", "intldes"])).count extRowC3 = 1) := by
  refine ⟨rfl, ?_, ?_⟩ <;> decide

/-- C3 amended: the merge performs a left outer join on the normalized
designator.  Every external row is retained (its count in the output is at
least its count in the input) and unmatched rows carry missing catalog
fields; the exact multiplicity is the input count multiplied by the number
of crosswalk rows matching the designator (taken as one when unmatched), so
input and output counts are equal exactly when no matched designator is
duplicated in the crosswalk.  Rows are compared by their external part
(the external columns plus the normalized designator); the external data is
assumed not to use the column labels the merge itself introduces or
consumes. -/
theorem claim_C3_amended (unoosa xwalk : DataFrame) (ucol : String) (m : DataFrame)
    (hu : ucol ∈ unoosa.cols)
    (hx : "INTLDES" ∈ xwalk.cols)
    (hres : ∀ r ∈ unoosa.rows, ∀ c ∈ reservedMergeCols, r.lookup c = none)
    (hcov : ∀ r ∈ unoosa.rows, ∀ c ∈ unoosa.cols, (r.lookup c).isSome = true)
    (hm : merge_unoosa_with_crosswalk unoosa xwalk ucol = .ok m) :
    (∀ x : Row,
      ((m.rows.map (canonRow (unoosa.cols ++ ["intldes"]))).count x) =
      (((setCol unoosa "intldes" (fun r => normalize_intldes (getCell r ucol))).rows.map
        (canonRow (unoosa.cols ++ ["intldes"]))).count x) * max 1 (matchCountIn xwalk x)) ∧
    (∀ x : Row,
      (((setCol unoosa "intldes" (fun r => normalize_intldes (getCell r ucol))).rows.map
        (canonRow (unoosa.cols ++ ["intldes"]))).count x) ≤
      ((m.rows.map (canonRow (unoosa.cols ++ ["intldes"]))).count x)) ∧
    (∀ lr ∈ (setCol unoosa "intldes" (fun r => normalize_intldes (getCell r ucol))).rows,
      (xwalk.rows.filter (fun rr => getCell lr "intldes" == getCell rr "INTLDES")) = [] →
      mergeRowFix (lr ++ fillNaRow xwalk.cols) ∈ m.rows ∧
      ∀ c ∈ (["norad_id", "satcat_satname", "COUNTRY", "LAUNCH", "DECAY"] : List String),
        getCell (mergeRowFix (lr ++ fillNaRow xwalk.cols)) c = Cell.na) := by
  simp only [merge_unoosa_with_crosswalk] at hm
  rw [if_neg (by simp [List.contains, hu])] at hm
  rw [if_neg (by simp [List.contains, hx])] at hm
  simp only [Except.ok.injEq] at hm
  have hrows : m.rows =
      (leftMergeRows (setCol unoosa "intldes"
        (fun r => normalize_intldes (getCell r ucol))).rows xwalk "intldes"
        "INTLDES").map mergeRowFix := by
    rw [← hm]
    simp only [renameCol, dropColumn, setCol, List.map_map]
    rfl
  have hprops : ∀ lr ∈ (setCol unoosa "intldes"
      (fun r => normalize_intldes (getCell r ucol))).rows,
      (∀ c ∈ unoosa.cols ++ ["intldes"], (lr.lookup c).isSome = true) ∧
      lr.lookup "INTLDES" = none ∧ lr.lookup "SATNAME" = none := by
    intro lr hlr
    simp only [setCol, List.mem_map] at hlr
    obtain ⟨r, hr, hlr⟩ := hlr
    refine ⟨?_, ?_, ?_⟩
    · intro c hc
      by_cases hci : c = "intldes"
      · rw [← hlr, hci, lookup_setCellIn_self]
        rfl
      · rw [← hlr, lookup_setCellIn_ne _ _ _ _ hci]
        rcases List.mem_append.mp hc with h2 | h2
        · exact hcov r hr c h2
        · rw [List.mem_singleton] at h2
          exact absurd h2 hci
    · rw [← hlr, lookup_setCellIn_ne _ _ _ _ (by decide)]
      exact hres r hr "INTLDES" (by decide)
    · rw [← hlr, lookup_setCellIn_ne _ _ _ _ (by decide)]
      exact hres r hr "SATNAME" (by decide)
  have hintl : "intldes" ∈ unoosa.cols ++ ["intldes"] :=
    List.mem_append.mpr (Or.inr (List.mem_singleton.mpr rfl))
  have hcount := count_leftMerge xwalk (unoosa.cols ++ ["intldes"]) hintl
    (setCol unoosa "intldes" (fun r => normalize_intldes (getCell r ucol))).rows hprops
  have h1 : ∀ x : Row,
      ((m.rows.map (canonRow (unoosa.cols ++ ["intldes"]))).count x) =
      (((setCol unoosa "intldes" (fun r => normalize_intldes (getCell r ucol))).rows.map
        (canonRow (unoosa.cols ++ ["intldes"]))).count x) * max 1 (matchCountIn xwalk x) := by
    intro x
    rw [hrows, List.map_map]
    exact hcount x
  refine ⟨h1, fun x => ?_, fun lr hlr hunm => ?_⟩
  · rw [h1 x]
    exact Nat.le_mul_of_pos_right _ (lt_of_lt_of_le one_pos (le_max_left _ _))
  · obtain ⟨-, hI, hS⟩ := hprops lr hlr
    constructor
    · rw [hrows]
      rw [List.mem_map]
      refine ⟨lr ++ fillNaRow xwalk.cols, ?_, rfl⟩
      unfold leftMergeRows
      rw [List.mem_flatMap]
      refine ⟨lr, hlr, ?_⟩
      unfold mergeBranch
      rw [hunm]
      simp
    · intro c hc
      simp only [setCol, List.mem_map] at hlr
      obtain ⟨r, hr, hlreq⟩ := hlr
      have hcr : c ∈ reservedMergeCols ∧ ¬ c = "intldes" := by
        fin_cases hc <;> exact ⟨by decide, by decide⟩
      have hcnone : lr.lookup c = none := by
        rw [← hlreq, lookup_setCellIn_ne _ _ _ _ hcr.2]
        exact hres r hr c hcr.1
      exact getCell_unmatched_na xwalk.cols lr c hcnone hI hS

/-- Witness for C3 (amended): the count identity applied to the concrete
witness frames, at the restricted external part of the single input row. -/
theorem claim_C3_amended_witness :
    ((mW.rows.map (canonRow (unoosaW.cols ++ ["intldes"]))).count
      [("d", Cell.strv " 1998-067a "), ("intldes", Cell.strv "1998-067A")]) =
    (((setCol unoosaW "intldes" (fun r => normalize_intldes (getCell r "d"))).rows.map
      (canonRow (unoosaW.cols ++ ["intldes"]))).count
      [("d", Cell.strv " 1998-067a "), ("intldes", Cell.strv "1998-067A")]) *
      max 1 (matchCountIn xwalkW
        [("d", Cell.strv " 1998-067a "), ("intldes", Cell.strv "1998-067A")]) :=
  (claim_C3_amended unoosaW xwalkW "d" mW (by decide) (by decide) (by decide) (by decide)
    rfl).1 _

end OrbitIQ
